import Mathlib

/-!
Shallow embedding of `src/routes/api/posts.js` from the dev-connector
repository: the seven route handlers of the Post Resource Handler, with the
document store modelled as an explicit list of Post documents and each
handler translated to a pure Lean function from request data and store
state to the sequence of responses it sends plus the updated store.
-/

namespace DevConnector

/-- Comment subdocument of a Post.  Fields follow the object literal built in
the comment route of `posts.js` (`text`, `name`, `avatar`, `user`) plus the
store-generated `id` the delete route compares against (`cmt.id`). -/
structure Comment where
  id : Nat
  text : String
  name : String
  avatar : String
  user : Nat
deriving Repr, DecidableEq

/-- Post document.  Modelled from the spec: the Mongoose model file
`models/Post.js` is not under `src/`, so the document shape follows the
spec data model (§3): `likes` is an ordered list of user ids
(most-recent-first) and `comments` an ordered list of Comment, both empty at
creation; `user` is the owner id; `name`/`avatar` are denormalized snapshots.
In particular a `likes` entry is a bare user id, so the source expression
`liker.id` denotes that user id. -/
structure Post where
  id : Nat
  text : String
  name : String
  avatar : String
  user : Nat
  likes : List Nat
  comments : List Comment
  date : Nat
deriving Repr, DecidableEq

/-- User Store record as read by the handlers (`user.name`, `user.avatar`). -/
structure UserRec where
  id : Nat
  name : String
  avatar : String
deriving Repr, DecidableEq

/-- Post Store state: the list of stored Post documents. -/
abbrev PostStore := List Post

/-- User Store state. -/
abbrev UserStore := List UserRec

/-- Request path id parameter: either a well-formed object id or a malformed
string that the store driver cannot cast. -/
inductive PostId where
  | wellFormed (n : Nat)
  | malformed
deriving Repr, DecidableEq

/-- Result of `Post.findById`: a document, `null` (missing), or a thrown
cast error whose `kind` is `ObjectId` (malformed id). -/
inductive FindResult where
  | found (p : Post)
  | missing
  | castError
deriving Repr, DecidableEq

/-- Embedding of `Post.findById(id)` over the list-based store: a malformed
id throws the ObjectId cast error; a well-formed id returns the first stored
document with that id, or `null`. -/
def findById (store : PostStore) : PostId → FindResult
  | .malformed => .castError
  | .wellFormed n =>
    match store.find? (fun p => p.id == n) with
    | some p => .found p
    | none => .missing

/-- Embedding of `User.findById(req.user.id)` over the User Store. -/
def findUser (us : UserStore) (uid : Nat) : Option UserRec :=
  us.find? (fun u => u.id == uid)

/-- Response body variants the handlers produce. -/
inductive Body where
  | postJson (p : Post)
  | postsJson (ps : List Post)
  | likesJson (ls : List Nat)
  | commentsJson (cs : List Comment)
  | msgJson (m : String)
  | errorsJson (es : List String)
  | textBody (s : String)
deriving Repr, DecidableEq

/-- An HTTP response attempt: status code plus body. -/
structure Resp where
  status : Nat
  body : Body
deriving Repr, DecidableEq

/-- The catch-all `res.status(500).send(\x27Server Error\x27)` response. -/
def serverError : Resp := ⟨500, .textBody "Server Error"⟩

/-- A handler run yields the sequence of response sends it executes, in
order.  Express delivers only the first send to the client; any later send
on the same request fails (headers already sent), so the client-visible
response is the head of the list. -/
def effective (rs : List Resp) : Option Resp := rs.head?

/-- Embedding of `post.save()`: replace the stored document carrying the
saved document's id. -/
def saveStore (store : PostStore) (p : Post) : PostStore :=
  store.map (fun q => if q.id == p.id then p else q)

/-- Embedding of `post.remove()`: drop every stored document with this id. -/
def removePost (store : PostStore) (pid : Nat) : PostStore :=
  store.filter (fun q => q.id != pid)

/-- Embedding of `router.post('/')` (CreatePost).  Empty `text` fails
validation with a 400 errors array before any store access; a missing caller
record makes `user.name` throw, caught as 500; otherwise the new Post is
built with denormalized name/avatar, owner = caller id, empty
likes/comments, the store-assigned id and timestamp, saved and returned.
The fresh id and timestamp, assigned by the store, are passed as
parameters. -/
def createPost (us : UserStore) (store : PostStore) (caller : Nat)
    (text : String) (newId date : Nat) : List Resp × PostStore :=
  if text.isEmpty then
    ([⟨400, .errorsJson ["Text is required"]⟩], store)
  else
    match findUser us caller with
    | none => ([serverError], store)
    | some u =>
      let newPost : Post :=
        { id := newId, text := text, name := u.name, avatar := u.avatar
          user := caller, likes := [], comments := [], date := date }
      ([⟨200, .postJson newPost⟩], store ++ [newPost])

/-- Embedding of `router.get('/:id')` (GetPost).  On a cast error the catch
block sends the 404 and then, lacking a `return`, also executes the
unconditional 500 send. -/
def getPost (store : PostStore) (id : PostId) : List Resp :=
  match findById store id with
  | .found p => [⟨200, .postJson p⟩]
  | .missing => [⟨404, .msgJson "Post not found"⟩]
  | .castError => [⟨404, .msgJson "Post not found"⟩, serverError]

/-- Embedding of `router.delete('/:id')` (DeletePost): 404 on missing id,
404-then-500 on cast error (same missing `return` as GetPost), 401 when the
caller is not the owner, otherwise remove and confirm. -/
def deletePost (store : PostStore) (caller : Nat) (id : PostId) :
    List Resp × PostStore :=
  match findById store id with
  | .castError => ([⟨404, .msgJson "Post not found"⟩, serverError], store)
  | .missing => ([⟨404, .msgJson "Post not found"⟩], store)
  | .found p =>
    if p.user != caller then
      ([⟨401, .msgJson "Not your post"⟩], store)
    else
      ([⟨200, .msgJson "Post deleted"⟩], removePost store p.id)

/-- Toggle step on the likes list, translating the branch of
`router.put('/:id/tlike')`: if no entry matches the caller's id, unshift the
caller; else keep only the entries whose id differs from the caller's. -/
def toggleLikes (likes : List Nat) (caller : Nat) : List Nat :=
  if (likes.filter (fun liker => liker == caller)).length == 0 then
    caller :: likes
  else
    likes.filter (fun liker => liker != caller)

/-- Embedding of `router.put('/:id/tlike')` (ToggleLike).  The handler
dereferences the fetched post without a null check, so a missing post (and
likewise a cast error — this catch block has no ObjectId branch) is caught
by the catch-all and answered with 500, not 404. -/
def toggleLike (store : PostStore) (caller : Nat) (id : PostId) :
    List Resp × PostStore :=
  match findById store id with
  | .castError => ([serverError], store)
  | .missing => ([serverError], store)
  | .found p =>
    let p1 := { p with likes := toggleLikes p.likes caller }
    ([⟨200, .likesJson p1.likes⟩], saveStore store p1)

/-- Embedding of `router.post('/:id')` (AddComment).  Empty text fails
validation with 400 before any store access.  As in ToggleLike there is no
null check and this catch block has no ObjectId branch, so a missing caller
record, a missing post or a malformed id all surface as 500.  On success the
new comment (with store-generated id, passed as a parameter) is unshifted
onto `comments`, the post saved, and the updated comment list returned. -/
def addComment (us : UserStore) (store : PostStore) (caller : Nat)
    (id : PostId) (text : String) (newCid : Nat) : List Resp × PostStore :=
  if text.isEmpty then
    ([⟨400, .errorsJson ["Text is required"]⟩], store)
  else
    match findUser us caller, findById store id with
    | some u, .found p =>
      let c : Comment :=
        { id := newCid, text := text, name := u.name, avatar := u.avatar
          user := caller }
      let p1 := { p with comments := c :: p.comments }
      ([⟨200, .commentsJson p1.comments⟩], saveStore store p1)
    | _, _ => ([serverError], store)

/-- Embedding of `router.delete('/:p_id/:c_id')` (DeleteComment): 404 on
missing post; 404 unless exactly one comment matches `c_id` (the source
checks `commentsMatched.length !== 1`, i.e. the matched list is not a
singleton); 401 when the matched comment's owner is not the caller;
otherwise keep only the comments whose id differs from `c_id`, save, and
confirm.  A cast error on `p_id` hits the ObjectId catch branch, which also
lacks a `return` before the 500 send. -/
def deleteComment (store : PostStore) (caller : Nat) (pid : PostId)
    (cid : Nat) : List Resp × PostStore :=
  match findById store pid with
  | .castError =>
    ([⟨404, .msgJson "Couldn\x27t locate resource"⟩, serverError], store)
  | .missing => ([⟨404, .msgJson "Post not found"⟩], store)
  | .found p =>
    match p.comments.filter (fun cmt => cmt.id == cid) with
    | [c] =>
      if c.user != caller then
        ([⟨401, .msgJson "Not your comment"⟩], store)
      else
        let p1 := { p with comments := p.comments.filter (fun cmt => cmt.id != cid) }
        ([⟨200, .msgJson "Comment deleted"⟩], saveStore store p1)
    | _ => ([⟨404, .msgJson "Comment not found"⟩], store)

/-- One store-mutating request of the Post Resource Handler, as a relation
between the Post Store before and after the request.  Read-only routes
(ListPosts, GetPost) do not change the store. -/
inductive Step : PostStore → PostStore → Prop where
  | create (us : UserStore) (s : PostStore) (caller : Nat) (text : String)
      (newId date : Nat) : Step s (createPost us s caller text newId date).2
  | del (s : PostStore) (caller : Nat) (id : PostId) :
      Step s (deletePost s caller id).2
  | toggle (s : PostStore) (caller : Nat) (id : PostId) :
      Step s (toggleLike s caller id).2
  | comment (us : UserStore) (s : PostStore) (caller : Nat) (id : PostId)
      (text : String) (newCid : Nat) :
      Step s (addComment us s caller id text newCid).2
  | delComment (s : PostStore) (caller : Nat) (pid : PostId) (cid : Nat) :
      Step s (deleteComment s caller pid cid).2

/-- Post Store states reachable from the empty store by handler requests. -/
inductive Reachable : PostStore → Prop where
  | nil : Reachable []
  | step {s t : PostStore} : Reachable s → Step s t → Reachable t

lemma filter_beq_nil {l : List Nat} {c : Nat} (h : c ∉ l) :
    l.filter (fun x => x == c) = [] := by
  rw [List.filter_eq_nil_iff]
  intro a ha
  simp only [beq_iff_eq]
  intro hac
  exact h (hac ▸ ha)

lemma filter_bne_self {l : List Nat} {c : Nat} (h : c ∉ l) :
    l.filter (fun x => x != c) = l := by
  rw [List.filter_eq_self]
  intro a ha
  simp only [bne_iff_ne, ne_eq]
  intro hac
  exact h (hac ▸ ha)

lemma filter_beq_ne_nil {l : List Nat} {c : Nat} (h : c ∈ l) :
    l.filter (fun x => x == c) ≠ [] := by
  intro hnil
  have : c ∈ l.filter (fun x => x == c) := List.mem_filter.mpr ⟨h, by simp⟩
  rw [hnil] at this
  cases this

lemma toggleLikes_of_not_mem {l : List Nat} {c : Nat} (h : c ∉ l) :
    toggleLikes l c = c :: l := by
  unfold toggleLikes
  rw [filter_beq_nil h]
  rfl

lemma toggleLikes_of_mem {l : List Nat} {c : Nat} (h : c ∈ l) :
    toggleLikes l c = l.filter (fun x => x != c) := by
  unfold toggleLikes
  rw [if_neg]
  simpa [List.length_eq_zero] using filter_beq_ne_nil h

lemma toggleLikes_invol {l : List Nat} {c : Nat}
    (h : c ∉ l ∨ ∃ rest, l = c :: rest ∧ c ∉ rest) :
    toggleLikes (toggleLikes l c) c = l := by
  rcases h with h | ⟨rest, rfl, hr⟩
  · rw [toggleLikes_of_not_mem h,
      toggleLikes_of_mem (List.mem_cons_self c l), List.filter_cons]
    simp [filter_bne_self h]
  · rw [toggleLikes_of_mem (List.mem_cons_self c rest), List.filter_cons]
    simp only [bne_self_eq_false, Bool.false_eq_true, if_false]
    rw [filter_bne_self hr, toggleLikes_of_not_mem hr]

lemma not_mem_toggleLikes_of_mem {l : List Nat} {c : Nat} (h : c ∈ l) :
    c ∉ toggleLikes l c := by
  rw [toggleLikes_of_mem h]
  intro hm
  rcases List.mem_filter.mp hm with ⟨-, hc⟩
  simp at hc

lemma toggleLikes_nodup {l : List Nat} {c : Nat} (h : l.Nodup) :
    (toggleLikes l c).Nodup := by
  by_cases hc : c ∈ l
  · rw [toggleLikes_of_mem hc]
    exact h.filter _
  · rw [toggleLikes_of_not_mem hc]
    exact List.nodup_cons.mpr ⟨hc, h⟩

lemma findById_wellFormed (s : PostStore) (n : Nat) :
    findById s (.wellFormed n) =
      match s.find? (fun p => p.id == n) with
      | some p => .found p
      | none => .missing := rfl

lemma findById_found_mem {s : PostStore} {n : Nat} {p : Post}
    (h : findById s (.wellFormed n) = .found p) : p ∈ s ∧ p.id = n := by
  rw [findById_wellFormed] at h
  cases hf : s.find? (fun q => q.id == n) with
  | none => rw [hf] at h; cases h
  | some q =>
    rw [hf] at h
    cases h
    refine ⟨List.mem_of_find?_eq_some hf, ?_⟩
    simpa using List.find?_some hf

lemma find?_saveStore {s : PostStore} {n : Nat} {p p1 : Post}
    (hf : s.find? (fun q => q.id == n) = some p) (hid : p1.id = p.id)
    (hn : p.id = n) :
    (saveStore s p1).find? (fun q => q.id == n) = some p1 := by
  unfold saveStore
  induction s with
  | nil => cases hf
  | cons a s ih =>
    by_cases ha : (a.id == n) = true
    · have haq : a = p := by
        rw [List.find?_cons_of_pos (p := fun q : Post => q.id == n) _ ha] at hf
        exact Option.some.inj hf
      subst haq
      simp only [List.map_cons]
      rw [if_pos (show (a.id == p1.id) = true by simp [hid, hn])]
      rw [List.find?_cons_of_pos (p := fun q : Post => q.id == n) _
        (show (p1.id == n) = true by simp [hid, hn])]
    · have hf2 : s.find? (fun q => q.id == n) = some p := by
        rwa [List.find?_cons_of_neg (p := fun q : Post => q.id == n) _ ha] at hf
      simp only [List.map_cons]
      have hane : (a.id == p1.id) = false := by
        simp only [beq_eq_false_iff_ne, ne_eq, hid, hn]
        simpa using ha
      rw [if_neg (show ¬(a.id == p1.id) = true by simp [hane])]
      rw [List.find?_cons_of_neg (p := fun q : Post => q.id == n) _ ha]
      exact ih hf2

lemma findById_saveStore {s : PostStore} {n : Nat} {p p1 : Post}
    (h : findById s (.wellFormed n) = .found p) (hid : p1.id = p.id) :
    findById (saveStore s p1) (.wellFormed n) = .found p1 := by
  have hn : p.id = n := (findById_found_mem h).2
  rw [findById_wellFormed] at h ⊢
  cases hf : s.find? (fun q => q.id == n) with
  | none => rw [hf] at h; cases h
  | some q =>
    rw [hf] at h
    cases h
    rw [find?_saveStore hf hid hn]

lemma saveStore_cancel {s : PostStore} {p p1 : Post} (hid : p1.id = p.id)
    (huniq : ∀ q ∈ s, q.id = p.id → q = p) :
    saveStore (saveStore s p1) p = s := by
  unfold saveStore
  rw [List.map_map]
  induction s with
  | nil => rfl
  | cons a s ih =>
    simp only [List.map_cons, Function.comp]
    rw [ih (fun q hq => huniq q (List.mem_cons_of_mem a hq))]
    by_cases ha : (a.id == p1.id) = true
    · rw [if_pos ha, if_pos (by simp [hid]), huniq a (List.mem_cons_self a s)
        (by simpa [hid] using ha)]
    · rw [if_neg ha, if_neg (by simpa [hid] using ha)]

lemma findById_removePost (s : PostStore) (m : Nat) :
    findById (removePost s m) (.wellFormed m) = .missing := by
  have hnone : (s.filter (fun q => q.id != m)).find? (fun q => q.id == m) = none := by
    rw [List.find?_eq_none]
    intro a ha
    have := (List.mem_filter.mp ha).2
    simpa using this
  simp [findById, removePost, hnone]

lemma mem_saveStore {s : PostStore} {p1 q : Post} (h : q ∈ saveStore s p1) :
    q = p1 ∨ q ∈ s := by
  unfold saveStore at h
  obtain ⟨x, hx, hq⟩ := List.mem_map.mp h
  by_cases hid : (x.id == p1.id) = true
  · rw [if_pos hid] at hq
    exact Or.inl hq.symm
  · rw [if_neg hid] at hq
    exact Or.inr (hq ▸ hx)

lemma mem_step {s t : PostStore} (h : Step s t) {q : Post} (hq : q ∈ t) :
    (∃ p ∈ s, q.likes = p.likes) ∨ q.likes = [] ∨
      ∃ p ∈ s, ∃ c, q.likes = toggleLikes p.likes c := by
  cases h with
  | create us s caller text newId date =>
    simp only [createPost] at hq
    split at hq
    · exact Or.inl ⟨q, hq, rfl⟩
    · split at hq
      · exact Or.inl ⟨q, hq, rfl⟩
      · rcases List.mem_append.mp hq with h1 | h2
        · exact Or.inl ⟨q, h1, rfl⟩
        · rcases List.mem_singleton.mp h2 with rfl
          exact Or.inr (Or.inl rfl)
  | del s caller id =>
    simp only [deletePost] at hq
    split at hq
    · exact Or.inl ⟨q, hq, rfl⟩
    · exact Or.inl ⟨q, hq, rfl⟩
    · split at hq
      · exact Or.inl ⟨q, hq, rfl⟩
      · exact Or.inl ⟨q, (List.mem_filter.mp hq).1, rfl⟩
  | toggle s caller id =>
    cases id with
    | malformed => exact Or.inl ⟨q, hq, rfl⟩
    | wellFormed n =>
      simp only [toggleLike] at hq
      split at hq
      · exact Or.inl ⟨q, hq, rfl⟩
      · exact Or.inl ⟨q, hq, rfl⟩
      · rename_i p hfind
        rcases mem_saveStore hq with rfl | hmem
        · exact Or.inr (Or.inr ⟨p, (findById_found_mem hfind).1, caller, rfl⟩)
        · exact Or.inl ⟨q, hmem, rfl⟩
  | comment us s caller id text newCid =>
    cases id with
    | malformed =>
      simp only [addComment] at hq
      split at hq
      · exact Or.inl ⟨q, hq, rfl⟩
      · split at hq
        · rename_i u p hu hfind
          simp [findById] at hfind
        · exact Or.inl ⟨q, hq, rfl⟩
    | wellFormed n =>
      simp only [addComment] at hq
      split at hq
      · exact Or.inl ⟨q, hq, rfl⟩
      · split at hq
        · rename_i u p hu hfind
          rcases mem_saveStore hq with rfl | hmem
          · exact Or.inl ⟨p, (findById_found_mem hfind).1, rfl⟩
          · exact Or.inl ⟨q, hmem, rfl⟩
        · exact Or.inl ⟨q, hq, rfl⟩
  | delComment s caller pid cid =>
    cases pid with
    | malformed => exact Or.inl ⟨q, hq, rfl⟩
    | wellFormed n =>
      simp only [deleteComment] at hq
      split at hq
      · exact Or.inl ⟨q, hq, rfl⟩
      · exact Or.inl ⟨q, hq, rfl⟩
      · rename_i p hfind
        split at hq
        · split at hq
          · exact Or.inl ⟨q, hq, rfl⟩
          · rcases mem_saveStore hq with rfl | hmem
            · exact Or.inl ⟨p, (findById_found_mem hfind).1, rfl⟩
            · exact Or.inl ⟨q, hmem, rfl⟩
        · exact Or.inl ⟨q, hq, rfl⟩

lemma likesNodup_step {s t : PostStore} (hs : ∀ p ∈ s, p.likes.Nodup)
    (h : Step s t) : ∀ q ∈ t, q.likes.Nodup := by
  intro q hq
  rcases mem_step h hq with ⟨p, hp, hl⟩ | hl | ⟨p, hp, c, hl⟩
  · rw [hl]; exact hs p hp
  · rw [hl]; exact List.nodup_nil
  · rw [hl]; exact toggleLikes_nodup (hs p hp)

/-- C1, counterexample: ToggleLike is not an involution on every post.  On a
post whose `likes` are `[1, 2]`, toggling twice as caller 2 first removes 2
and then re-adds it at the head, yielding `[2, 1]` — the contents survive
but not the order, so the store does not return to its original state. -/
theorem c1_toggle_twice_counterexample :
    (toggleLike (toggleLike
        [⟨3, "t", "nm", "av", 1, [1, 2], [], 0⟩] 2 (.wellFormed 3)).2
        2 (.wellFormed 3)).2 ≠
      [⟨3, "t", "nm", "av", 1, [1, 2], [], 0⟩] := by decide

/-- C1, amended: calling ToggleLike twice with the same caller on the same
post restores the store (hence the post's `likes` array, contents and
order) exactly under the condition the counterexample forces: the caller's
id is absent from `likes`, or `likes` starts with the caller's id and
contains it nowhere else.  (Post ids are assumed unambiguous in the store,
as the store driver guarantees.) -/
theorem c1_toggle_twice_restores (s : PostStore) (caller n : Nat) (p : Post)
    (hfind : findById s (.wellFormed n) = .found p)
    (huniq : ∀ q ∈ s, q.id = p.id → q = p)
    (hlike : caller ∉ p.likes ∨
      ∃ rest, p.likes = caller :: rest ∧ caller ∉ rest) :
    (toggleLike (toggleLike s caller (.wellFormed n)).2
        caller (.wellFormed n)).2 = s := by
  have h1 : (toggleLike s caller (.wellFormed n)).2 =
      saveStore s { p with likes := toggleLikes p.likes caller } := by
    simp only [toggleLike, hfind]
  have hfind2 : findById
      (saveStore s { p with likes := toggleLikes p.likes caller })
      (.wellFormed n) = .found { p with likes := toggleLikes p.likes caller } :=
    findById_saveStore hfind rfl
  rw [h1]
  simp only [toggleLike, hfind2]
  have hp2 : ({ { p with likes := toggleLikes p.likes caller } with
      likes := toggleLikes (toggleLikes p.likes caller) caller } : Post) = p := by
    cases p
    simp [toggleLikes_invol hlike]
  rw [hp2]
  exact saveStore_cancel rfl huniq

/-- C1, witness for the amended theorem: on a post whose likes are `[2, 1]`
(caller 2 at the head), toggling twice as caller 2 restores the store. -/
theorem c1_toggle_twice_restores_witness :
    (toggleLike (toggleLike
        [⟨3, "t", "nm", "av", 1, [2, 1], [], 0⟩] 2 (.wellFormed 3)).2
        2 (.wellFormed 3)).2 =
      [⟨3, "t", "nm", "av", 1, [2, 1], [], 0⟩] :=
  c1_toggle_twice_restores _ 2 3 ⟨3, "t", "nm", "av", 1, [2, 1], [], 0⟩
    (by decide) (by decide) (Or.inr ⟨[1], rfl, by decide⟩)

/-- C2: in every Post Store reachable from the empty store by handler
requests, every post's `likes` list holds each user id at most once
(`Nodup`), and ToggleLike on a post already liked by the caller removes the
caller's id rather than adding a duplicate. -/
theorem c2_likes_nodup_invariant (s : PostStore) (h : Reachable s) :
    (∀ p ∈ s, p.likes.Nodup) ∧
      ∀ (p : Post) (caller : Nat), p ∈ s → caller ∈ p.likes →
        caller ∉ toggleLikes p.likes caller := by
  constructor
  · induction h with
    | nil => intro p hp; cases hp
    | step hr hstep ih => exact likesNodup_step ih hstep
  · intro p caller _ hc
    exact not_mem_toggleLikes_of_mem hc

/-- C2, witness: after creating a post and toggling a like on it, the
resulting store is reachable and the stored post's likes are duplicate
free. -/
theorem c2_likes_nodup_invariant_witness :
    (⟨0, "hi", "nm", "av", 1, [1], [], 5⟩ : Post).likes.Nodup :=
  (c2_likes_nodup_invariant
      (toggleLike (createPost [⟨1, "nm", "av"⟩] [] 1 "hi" 0 5).2
        1 (.wellFormed 0)).2
      (Reachable.step
        (Reachable.step Reachable.nil
          (Step.create [⟨1, "nm", "av"⟩] [] 1 "hi" 0 5))
        (Step.toggle (createPost [⟨1, "nm", "av"⟩] [] 1 "hi" 0 5).2
          1 (.wellFormed 0)))).1
    ⟨0, "hi", "nm", "av", 1, [1], [], 5⟩ (by decide)

/-- C3: evaluation at the failing input.  On a well-formed id with no stored
post, ToggleLike and AddComment (non-empty text, caller present in the User
Store) dereference the `null` post, so the catch-all answers with the 500
Server Error response, not the 404 NotFound the spec intends. -/
theorem c3_missing_post_gives_server_error :
    (toggleLike [] 1 (.wellFormed 5)).1 = [serverError] ∧
      (addComment [⟨1, "nm", "av"⟩] [] 1 (.wellFormed 5) "hello" 9).1 =
        [serverError] :=
  ⟨rfl, rfl⟩

/-- C10: in GetPost and DeletePost, when the store lookup throws the
ObjectId cast error (malformed id), the catch branch sends the 404 and
then, the send not being followed by a `return`, also executes the
unconditional 500 send: the handler attempts two responses. -/
theorem c10_double_send_on_cast_error (s : PostStore) (caller : Nat) :
    getPost s .malformed =
        [⟨404, .msgJson "Post not found"⟩, serverError] ∧
      (deletePost s caller .malformed).1 =
        [⟨404, .msgJson "Post not found"⟩, serverError] :=
  ⟨rfl, rfl⟩

/-- C4: CreatePost with empty text fails with the 400 validation errors
array and leaves the store unchanged; with non-empty text and a caller
present in the User Store it returns 200 with a Post whose text is the
input, whose name and avatar are copied from the caller's User Store
record, whose `user` is the caller's id and whose likes and comments are
empty, and appends exactly that Post to the store. -/
theorem c4_createPost_spec (us : UserStore) (s : PostStore)
    (caller newId date : Nat) :
    (createPost us s caller "" newId date =
        ([⟨400, .errorsJson ["Text is required"]⟩], s)) ∧
      ∀ text : String, text.isEmpty = false → ∀ u : UserRec,
        findUser us caller = some u →
        createPost us s caller text newId date =
          ([⟨200, .postJson
              ⟨newId, text, u.name, u.avatar, caller, [], [], date⟩⟩],
            s ++ [⟨newId, text, u.name, u.avatar, caller, [], [], date⟩]) := by
  refine ⟨rfl, ?_⟩
  intro text ht u hu
  simp [createPost, ht, hu]

/-- C4, witness: concrete creation for caller 1 with text `"hello"`. -/
theorem c4_createPost_spec_witness :
    createPost [⟨1, "nm", "av"⟩] [] 1 "hello" 7 3 =
      ([⟨200, .postJson ⟨7, "hello", "nm", "av", 1, [], [], 3⟩⟩],
        [⟨7, "hello", "nm", "av", 1, [], [], 3⟩]) :=
  (c4_createPost_spec [⟨1, "nm", "av"⟩] [] 1 7 3).2 "hello" rfl
    ⟨1, "nm", "av"⟩ rfl

/-- C5: DeletePost answers 404 NotFound for a missing id and (as the
client-visible response) for a malformed id, leaving the store unchanged;
401 Forbidden with a message when the caller is not the owner, leaving the
store unchanged; and for the owner it removes the post, returns the
confirmation message, and a subsequent GetPost on that id answers 404
NotFound. -/
theorem c5_deletePost_spec (s : PostStore) (caller n : Nat) :
    (findById s (.wellFormed n) = .missing →
        deletePost s caller (.wellFormed n) =
          ([⟨404, .msgJson "Post not found"⟩], s)) ∧
      (effective (deletePost s caller .malformed).1 =
          some ⟨404, .msgJson "Post not found"⟩ ∧
        (deletePost s caller .malformed).2 = s) ∧
      (∀ p : Post, findById s (.wellFormed n) = .found p → p.user ≠ caller →
        deletePost s caller (.wellFormed n) =
          ([⟨401, .msgJson "Not your post"⟩], s)) ∧
      ∀ p : Post, findById s (.wellFormed n) = .found p → p.user = caller →
        (deletePost s caller (.wellFormed n)).1 =
            [⟨200, .msgJson "Post deleted"⟩] ∧
          getPost (deletePost s caller (.wellFormed n)).2
              (.wellFormed p.id) =
            [⟨404, .msgJson "Post not found"⟩] := by
  refine ⟨?_, ⟨rfl, rfl⟩, ?_, ?_⟩
  · intro hm
    simp [deletePost, hm]
  · intro p hf hne
    have hb : (p.user != caller) = true := by simpa using hne
    simp [deletePost, hf, hb]
  · intro p hf he
    have hb : (p.user != caller) = false := by simp [he]
    constructor
    · simp [deletePost, hf, hb]
    · have h2 : (deletePost s caller (.wellFormed n)).2 = removePost s p.id := by
        simp [deletePost, hf, hb]
      rw [h2]
      simp [getPost, findById_removePost]

/-- C5, witness: owner delete on a singleton store, then GetPost misses. -/
theorem c5_deletePost_spec_witness :
    (deletePost [⟨3, "t", "nm", "av", 7, [], [], 0⟩] 7 (.wellFormed 3)).1 =
        [⟨200, .msgJson "Post deleted"⟩] ∧
      getPost (deletePost [⟨3, "t", "nm", "av", 7, [], [], 0⟩] 7
          (.wellFormed 3)).2 (.wellFormed 3) =
        [⟨404, .msgJson "Post not found"⟩] :=
  (c5_deletePost_spec [⟨3, "t", "nm", "av", 7, [], [], 0⟩] 7 3).2.2.2
    ⟨3, "t", "nm", "av", 7, [], [], 0⟩ (by decide) rfl

/-- C6: DeleteComment answers 404 when the post is missing; 404 when the
number of comments matching the comment id is not exactly one; 401 with a
message when the unique matching comment's owner is not the caller; and
otherwise removes every comment with that id, saves the post, and returns
the confirmation message. -/
theorem c6_deleteComment_spec (s : PostStore) (caller n cid : Nat) :
    (findById s (.wellFormed n) = .missing →
        deleteComment s caller (.wellFormed n) cid =
          ([⟨404, .msgJson "Post not found"⟩], s)) ∧
      (∀ p : Post, findById s (.wellFormed n) = .found p →
        (p.comments.filter (fun cmt => cmt.id == cid)).length ≠ 1 →
        deleteComment s caller (.wellFormed n) cid =
          ([⟨404, .msgJson "Comment not found"⟩], s)) ∧
      (∀ (p : Post) (c : Comment), findById s (.wellFormed n) = .found p →
        p.comments.filter (fun cmt => cmt.id == cid) = [c] →
        c.user ≠ caller →
        deleteComment s caller (.wellFormed n) cid =
          ([⟨401, .msgJson "Not your comment"⟩], s)) ∧
      ∀ (p : Post) (c : Comment), findById s (.wellFormed n) = .found p →
        p.comments.filter (fun cmt => cmt.id == cid) = [c] →
        c.user = caller →
        deleteComment s caller (.wellFormed n) cid =
          ([⟨200, .msgJson "Comment deleted"⟩],
            saveStore s { p with
              comments := p.comments.filter (fun cmt => cmt.id != cid) }) := by
  refine ⟨?_, ?_, ?_, ?_⟩
  · intro hm
    simp [deleteComment, hm]
  · intro p hf hlen
    rcases hm : p.comments.filter (fun cmt => cmt.id == cid) with _ | ⟨c, tl⟩
    · simp [deleteComment, hf, hm]
    · cases tl with
      | nil => rw [hm] at hlen; simp at hlen
      | cons c2 tl2 => simp [deleteComment, hf, hm]
  · intro p c hf hm hne
    have hb : (c.user != caller) = true := by simpa using hne
    simp [deleteComment, hf, hm, hb]
  · intro p c hf hm he
    have hb : (c.user != caller) = false := by simp [he]
    simp [deleteComment, hf, hm, hb]

/-- C6, witness: the owner deletes the unique matching comment. -/
theorem c6_deleteComment_spec_witness :
    deleteComment [⟨3, "t", "nm", "av", 7, [],
        [⟨11, "c", "nm", "av", 7⟩], 0⟩] 7 (.wellFormed 3) 11 =
      ([⟨200, .msgJson "Comment deleted"⟩],
        [⟨3, "t", "nm", "av", 7, [], [], 0⟩]) :=
  (c6_deleteComment_spec [⟨3, "t", "nm", "av", 7, [],
      [⟨11, "c", "nm", "av", 7⟩], 0⟩] 7 3 11).2.2.2
    ⟨3, "t", "nm", "av", 7, [], [⟨11, "c", "nm", "av", 7⟩], 0⟩
    ⟨11, "c", "nm", "av", 7⟩ (by decide) (by decide) rfl

/-- C7: DeleteComment is atomic on failure: on an existing post none of
whose comments carries the requested comment id, it answers 404 NotFound
and returns the store unchanged, so the post's comments are untouched and
nothing is persisted. -/
theorem c7_deleteComment_no_match_unchanged (s : PostStore)
    (caller n cid : Nat) (p : Post)
    (hfind : findById s (.wellFormed n) = .found p)
    (hnone : ∀ c ∈ p.comments, c.id ≠ cid) :
    deleteComment s caller (.wellFormed n) cid =
      ([⟨404, .msgJson "Comment not found"⟩], s) := by
  have hm : p.comments.filter (fun cmt => cmt.id == cid) = [] := by
    rw [List.filter_eq_nil_iff]
    intro c hc
    simpa using hnone c hc
  simp [deleteComment, hfind, hm]

/-- C7, witness: deleting the absent comment id 12 leaves the singleton
store unchanged and answers 404. -/
theorem c7_deleteComment_no_match_unchanged_witness :
    deleteComment [⟨3, "t", "nm", "av", 7, [],
        [⟨11, "c", "nm", "av", 7⟩], 0⟩] 7 (.wellFormed 3) 12 =
      ([⟨404, .msgJson "Comment not found"⟩],
        [⟨3, "t", "nm", "av", 7, [], [⟨11, "c", "nm", "av", 7⟩], 0⟩]) :=
  c7_deleteComment_no_match_unchanged _ 7 3 12
    ⟨3, "t", "nm", "av", 7, [], [⟨11, "c", "nm", "av", 7⟩], 0⟩
    (by decide) (by decide)

/-- C8: GetPost returns the stored post for an existing id; answers 404
with body `{msg: "Post not found"}` when no post has the id; and on a
malformed id the client-visible response is that same 404 and no other
status reaches the client (the additional attempted 500 send — see the C10
theorem — fails because headers were already sent). -/
theorem c8_getPost_spec (s : PostStore) (n : Nat) :
    (∀ p : Post, findById s (.wellFormed n) = .found p →
        getPost s (.wellFormed n) = [⟨200, .postJson p⟩]) ∧
      (findById s (.wellFormed n) = .missing →
        getPost s (.wellFormed n) = [⟨404, .msgJson "Post not found"⟩]) ∧
      effective (getPost s .malformed) =
        some ⟨404, .msgJson "Post not found"⟩ := by
  refine ⟨?_, ?_, rfl⟩
  · intro p hf
    simp [getPost, hf]
  · intro hm
    simp [getPost, hm]

/-- C8, witness: hit on a singleton store, miss on the empty store. -/
theorem c8_getPost_spec_witness :
    getPost [⟨3, "t", "nm", "av", 7, [], [], 0⟩] (.wellFormed 3) =
        [⟨200, .postJson ⟨3, "t", "nm", "av", 7, [], [], 0⟩⟩] ∧
      getPost [] (.wellFormed 3) = [⟨404, .msgJson "Post not found"⟩] :=
  ⟨(c8_getPost_spec [⟨3, "t", "nm", "av", 7, [], [], 0⟩] 3).1
      ⟨3, "t", "nm", "av", 7, [], [], 0⟩ (by decide),
    (c8_getPost_spec [] 3).2.1 (by decide)⟩

/-- C9: AddComment with empty text fails with the 400 validation errors
array and leaves the store unchanged; with non-empty text, a caller present
in the User Store and an existing post, it builds the comment from the
input text and the caller's User Store name/avatar with owner the caller's
id, prepends it to the post's comments, saves the post, and returns the
updated comment list with the new comment first. -/
theorem c9_addComment_spec (us : UserStore) (s : PostStore)
    (caller n newCid : Nat) :
    (addComment us s caller (.wellFormed n) "" newCid =
        ([⟨400, .errorsJson ["Text is required"]⟩], s)) ∧
      ∀ text : String, text.isEmpty = false →
        ∀ (u : UserRec) (p : Post), findUser us caller = some u →
          findById s (.wellFormed n) = .found p →
          addComment us s caller (.wellFormed n) text newCid =
            ([⟨200, .commentsJson
                (⟨newCid, text, u.name, u.avatar, caller⟩ :: p.comments)⟩],
              saveStore s { p with comments :=
                ⟨newCid, text, u.name, u.avatar, caller⟩ :: p.comments }) := by
  refine ⟨rfl, ?_⟩
  intro text ht u p hu hf
  simp [addComment, ht, hu, hf]

/-- C9, witness: caller 7 comments `"nice"` on the stored post; the new
comment appears at the head of the returned list and of the saved post. -/
theorem c9_addComment_spec_witness :
    addComment [⟨7, "nm", "av"⟩] [⟨3, "t", "nm", "av", 7, [], [], 0⟩] 7
        (.wellFormed 3) "nice" 11 =
      ([⟨200, .commentsJson [⟨11, "nice", "nm", "av", 7⟩]⟩],
        [⟨3, "t", "nm", "av", 7, [], [⟨11, "nice", "nm", "av", 7⟩], 0⟩]) :=
  (c9_addComment_spec [⟨7, "nm", "av"⟩] [⟨3, "t", "nm", "av", 7, [], [], 0⟩]
      7 3 11).2 "nice" rfl ⟨7, "nm", "av"⟩ ⟨3, "t", "nm", "av", 7, [], [], 0⟩
    rfl (by decide)

end DevConnector
